import Mathlib

/-!
Shallow embedding of the GridPlus Lattice keyring adapter
(`eth-lattice-keyring`).  The embedding follows the newest variant of the
adapter found in the repository (the class with `accounts`,
`accountIndices` and `accountOpts` parallel arrays, `_syncCurrentWalletUID`,
`_getHDPathIndices(hdPath, idx)` and the EIP1559/EIP2930 transaction
builder).  The earlier variant of `_connect(updateData)`, which rejects on
wallet drift when `updateData === false`, is embedded separately as
`connectV0`.

Device and browser I/O (the SDK session, the credential popup, the sha256
primitive) are external collaborators; they are modelled by an `Env` record
of oracle responses, and every operation additionally reports the list of
outbound device requests it issued.  JavaScript `null`/`undefined` string
fields are modelled as `Option String`, with JS truthiness of a string
being "is some non-empty string".
-/

namespace Lattice

/-- Apostrophe character, used as the hardened marker in HD path strings. -/
def hardChar : Char := Char.ofNat 39

/-- Hardened marker as a one-character string. -/
def hardStr : String := String.singleton hardChar

/-- Placeholder character in HD path templates. -/
def xChar : Char := 'x'

/-- Hardened offset constant 0x80000000 from the source. -/
def HARDENED_OFFSET : Nat := 2147483648

/-- Page size constant PER_PAGE from the source. -/
def PER_PAGE : Nat := 5

/-- Sentinel passed to addAccounts to request a device forget. -/
def CLOSE_CODE : Int := -1000

/-- Standard HD path template, the source string m/44h/60h/0h/0/x where h
is the apostrophe hardened marker. -/
def STANDARD_HD_PATH : String :=
  "m/44" ++ hardStr ++ "/60" ++ hardStr ++ "/0" ++ hardStr ++ "/0/x"

/-- JS truthiness of a nullable string: non-null and non-empty. -/
def strOptTruthy : Option String → Bool
  | none => false
  | some x => !(x == "")

/-- Decimal parse of a character list.  The empty list gives 0 and any
non-digit gives none, matching JS Number() on the integer-literal
segments that appear in HD path strings (NaN as none). -/
def decimalValue (l : List Char) : Option Nat :=
  l.foldl
    (fun acc c =>
      match acc with
      | none => none
      | some v => if c.isDigit then some (v * 10 + (c.toNat - 48)) else none)
    (some 0)

/-- JS Number() on a path segment. -/
def jsNumber (str : String) : Option Nat := decimalValue str.data

/-- Split of a character list at a separator character, with JS
String.split semantics: the empty string yields one empty piece. -/
def splitChars (c : Char) : List Char → List (List Char)
  | [] => [[]]
  | ch :: rest =>
    let r := splitChars c rest
    if ch = c then [] :: r
    else (ch :: r.headD []) :: r.tail

/-- JS toLowerCase restricted to the ASCII range, character by
character. -/
def jsToLower (s : String) : String := String.mk (s.data.map Char.toLower)

/-- Membership of a character in a string, as JS indexOf(c) > -1. -/
def strContains (s : String) (c : Char) : Bool := s.data.contains c

/-- Last character of a string, used by the hardened-marker check
seg[seg.length - 1]. -/
def lastChar (s : String) : Option Char := s.data.getLast?

/-- Segments of an HD path string: split on the slash and drop the leading
m marker, exactly as hdPath.split(slash).slice(1) does. -/
def pathSegments (hdPath : String) : List String :=
  ((splitChars '/' hdPath.data).map String.mk).drop 1

/-- Error message thrown by getHDPathIndices for over-long paths. -/
def pathLenErr : String := "Only HD paths with up to 5 indices are allowed."

/-- Parse of one path segment with the insertion index at hand, following
the forEach body of getHDPathIndices: a trailing apostrophe adds the
hardened offset; a segment containing the placeholder contributes the
insertion index; otherwise the numeric literal is used (NaN as none). -/
def parseSegIdx (insertIdx : Nat) (seg : String) : Option Nat :=
  let isHardened := lastChar seg == some hardChar
  let base : Nat := if isHardened then HARDENED_OFFSET else 0
  if strContains seg xChar then some (base + insertIdx)
  else
    let numStr := if isHardened then String.mk seg.data.dropLast else seg
    match jsNumber numStr with
    | some v => some (base + v)
    | none => none

/-- Embedding of getHDPathIndices(hdPath, insertIdx).  The forEach loop
maps parseSegIdx over the segments while recording whether any segment
contained the placeholder; if none did, the insertion index is appended as
an implicit final entry; the length check runs last. -/
def getHDPathIndices (hdPath : String) (insertIdx : Nat) :
    Except String (List (Option Nat)) :=
  let path := pathSegments hdPath
  let usedX := path.any (fun seg => strContains seg xChar)
  let indices0 := path.map (parseSegIdx insertIdx)
  let indices := if usedX then indices0 else indices0 ++ [some insertIdx]
  if indices.length > 5 then Except.error pathLenErr else Except.ok indices

/-- Loop body of hdPathHasInternalVarIdx: scan all segments but the last
for the placeholder. -/
def hasXInternal : List String → Bool
  | [] => false
  | [_] => false
  | seg :: rest => strContains seg xChar || hasXInternal rest

/-- Embedding of hdPathHasInternalVarIdx, generalised over the path (the
source reads this.hdPath). -/
def hdPathHasInternalVarIdx (hdPath : String) : Bool :=
  hasXInternal (pathSegments hdPath)

/-- Credentials record: deviceID, password and optional endpoint, each
nullable. -/
structure Creds where
  deviceID : Option String
  password : Option String
  endpoint : Option String
deriving DecidableEq, Repr

/-- Per-account metadata pushed alongside each cached address: the wallet
identity at fetch time (possibly null, since _getCurrentWalletUID may
return null) and the path template used. -/
structure AccountOpts where
  walletUID : Option String
  hdPath : String
deriving DecidableEq, Repr

/-- Adapter state: the fields of the keyring object that the embedded
operations read or write.  isLocked is carried for completeness. -/
structure KState where
  accounts : List String
  accountIndices : List Nat
  accountOpts : List AccountOpts
  creds : Creds
  walletUID : Option String
  sdkSession : Bool
  page : Int
  unlockedAccount : Nat
  network : Option String
  appName : Option String
  name : Option String
  hdPath : String
  forceReconnect : Bool
deriving DecidableEq, Repr

/-- Credentials payload delivered by the connector page. -/
structure CredsPayload where
  deviceID : String
  password : String
  endpoint : Option String
deriving DecidableEq, Repr

/-- Signature components of a device sign response; a missing component is
none (an empty buffer is some "" and is truthy in JS). -/
structure SigData where
  v : Option String
  r : Option String
  s : Option String
deriving DecidableEq, Repr

/-- Raw device sign response: optional signature record and presence of
the tx payload. -/
structure SignResponse where
  sig : Option SigData
  tx : Bool
deriving DecidableEq, Repr

/-- Environment of external collaborators: the sha256 primitive, the
credential connector exchange, the device connect outcome, the reported
active wallet (none when no wallet or no uid is reported), the address
fetch oracle (arguments: requested count and start index), the sign
response and the firmware version fields used by the legacy downgrade
check (fwVersion has format fix, minor, major, reserved). -/
structure Env where
  hash : String → String
  connectorCreds : Except String CredsPayload
  connectErr : Option String
  activeWallet : Option String
  getAddresses : Nat → Nat → Except String (List String)
  signResult : Except String SignResponse
  fwMinor : Nat
  fwMajor : Nat

/-- Outbound device requests an operation issued, in order. -/
inductive Req where
  | credsReq : Req
  | connectReq : Req
  | getAddressesReq (n i : Nat) : Req
  | signReq : Req
deriving DecidableEq, Repr

/-- Result of one adapter operation: outcome, post-state, issued device
requests. -/
structure Res (α : Type) where
  out : Except String α
  st : KState
  reqs : List Req

/-- Empty credentials record as set by _resetDefaults. -/
def emptyCreds : Creds := ⟨none, none, none⟩

/-- Embedding of _resetDefaults (also the body of forgetDevice): clears
the account cache, credentials, wallet identity, session handle,
pagination cursor, unlock index and network, and restores the standard
path.  appName, name and forceReconnect are not touched by the source. -/
def resetDefaults (s : KState) : KState :=
  { s with
    accounts := []
    accountIndices := []
    accountOpts := []
    creds := emptyCreds
    walletUID := none
    sdkSession := false
    page := 0
    unlockedAccount := 0
    network := none
    hdPath := STANDARD_HD_PATH }

/-- Embedding of forgetDevice. -/
def forgetDevice (s : KState) : KState := resetDefaults s

/-- Embedding of _hasCreds: deviceID and password non-null (an empty
string still counts, the check is strict non-null) and appName truthy. -/
def hasCreds (s : KState) : Bool :=
  s.creds.deviceID.isSome && s.creds.password.isSome && strOptTruthy s.appName

/-- Embedding of _getCurrentWalletUID: this.walletUID or null. -/
def getCurrentWalletUID (s : KState) : Option String := s.walletUID

/-- Embedding of isUnlocked: a truthy current wallet UID and a session
handle. -/
def isUnlocked (s : KState) : Bool :=
  strOptTruthy (getCurrentWalletUID s) && s.sdkSession

/-- Error message of _genSessionKey without credentials. -/
def noCredsMsg : String := "No credentials -- cannot create session key!"

/-- Legacy migration step at the top of _genSessionKey: a truthy name
with no truthy appName is promoted to appName. -/
def migrateName (s : KState) : KState :=
  if strOptTruthy s.name && !(strOptTruthy s.appName) then
    { s with appName := s.name }
  else s

/-- Embedding of _genSessionKey: first the legacy name-to-appName
migration, then the credentials check, then the digest of
password, deviceID and appName concatenated in that order. -/
def genSessionKey (env : Env) (s : KState) : Except String String × KState :=
  let s1 := migrateName s
  if !(hasCreds s1) then (Except.error noCredsMsg, s1)
  else
    (Except.ok (env.hash
      ((s1.creds.password.getD "") ++ (s1.creds.deviceID.getD "") ++
        (s1.appName.getD ""))), s1)

/-- Embedding of _syncCurrentWalletUID: null without a session or a
reported wallet; otherwise adopt a differing reported uid and return the
stored uid. -/
def syncCurrentWalletUID (s : KState) (env : Env) : Option String × KState :=
  if !s.sdkSession then (none, s)
  else
    match env.activeWallet with
    | none => (none, s)
    | some uid =>
      if some uid ≠ s.walletUID then (some uid, { s with walletUID := some uid })
      else (s.walletUID, s)

/-- Rejection message of the modern _connect and of other sync points when
no truthy wallet uid is available. -/
def noActiveWalletMsg : String := "No active wallet."

/-- Embedding of the modern _connect: device connect (the timeout
juggling touches only the external handle), then wallet-uid sync; a falsy
sync result rejects. -/
def connect (s : KState) (env : Env) : Res Unit :=
  match env.connectErr with
  | some e => ⟨Except.error e, s, [Req.connectReq]⟩
  | none =>
    let r := syncCurrentWalletUID s env
    if strOptTruthy r.1 then ⟨Except.ok (), r.2, [Req.connectReq]⟩
    else ⟨Except.error noActiveWalletMsg, r.2, [Req.connectReq]⟩

/-- Rejection message for an invalid connector payload. -/
def invalidCredsMsg : String := "Invalid credentials returned from Lattice."

/-- Embedding of _getCreds: resolve immediately with no payload when
credentials are present and no forced reconnect is pending; otherwise
clear the forced-reconnect flag and run the connector exchange, rejecting
a payload missing deviceID or password. -/
def getCreds (s : KState) (env : Env) : Res (Option CredsPayload) :=
  if hasCreds s && !s.forceReconnect then ⟨Except.ok none, s, []⟩
  else
    let s1 := { s with forceReconnect := false }
    match env.connectorCreds with
    | Except.error e => ⟨Except.error e, s1, [Req.credsReq]⟩
    | Except.ok p =>
      if p.deviceID == "" || p.password == "" then
        ⟨Except.error invalidCredsMsg, s1, [Req.credsReq]⟩
      else ⟨Except.ok (some p), s1, [Req.credsReq]⟩

/-- Embedding of _initSession: a no-op when already unlocked, otherwise
derive the session key (which may fail) and install the session handle. -/
def initSession (env : Env) (s : KState) : Res Unit :=
  if isUnlocked s then ⟨Except.ok (), s, []⟩
  else
    match genSessionKey env s with
    | (Except.error e, s1) => ⟨Except.error e, s1, []⟩
    | (Except.ok _, s1) => ⟨Except.ok (), { s1 with sdkSession := true }, []⟩

/-- Compatibility-reset message of unlock. -/
def compatMsg : String :=
  "You can now add multiple Lattice and SafeCard accounts at the same time! Your accounts have been cleared. Please press Continue to add them back in."

/-- Credentials record stored by unlock from a connector payload: a falsy
endpoint becomes null. -/
def credsOfPayload (p : CredsPayload) : Creds :=
  ⟨some p.deviceID, some p.password,
   match p.endpoint with
   | some e => if e = "" then none else some e
   | none => none⟩

/-- Embedding of unlock: the accountOpts compatibility check (which
forgets the device and rejects), the short-circuit when already unlocked
with no forced reconnect, then getCreds, credential storage, initSession
and connect. -/
def unlock (s : KState) (env : Env) : Res String :=
  if s.accounts.length > 0 && s.accountOpts.length != s.accounts.length then
    ⟨Except.error compatMsg, resetDefaults s, []⟩
  else if isUnlocked s && !s.forceReconnect then ⟨Except.ok "Unlocked", s, []⟩
  else
    let r1 := getCreds s env
    match r1.out with
    | Except.error e => ⟨Except.error e, r1.st, r1.reqs⟩
    | Except.ok payload =>
      let s2 :=
        match payload with
        | none => r1.st
        | some p => { r1.st with creds := credsOfPayload p }
      let r2 := initSession env s2
      match r2.out with
      | Except.error e => ⟨Except.error e, r2.st, r1.reqs ++ r2.reqs⟩
      | Except.ok _ =>
        let r3 := connect r2.st env
        match r3.out with
        | Except.error e => ⟨Except.error e, r3.st, r1.reqs ++ r2.reqs ++ r3.reqs⟩
        | Except.ok _ => ⟨Except.ok "Unlocked", r3.st, r1.reqs ++ r2.reqs ++ r3.reqs⟩

/-- Rejection message of _fetchAddresses without a connection. -/
def noConnMsg : String := "No connection to Lattice. Cannot fetch addresses."

/-- Rejection message when the device returns zero addresses. -/
def noAddrsMsg : String := "No addresses returned"

/-- Embedding of the recursive __fetchAddresses loop.  Each round resolves
the path for the current index (a synchronous throw of getHDPathIndices
rejects), requests 1 address when the path needs per-index derivation and
n otherwise, syncs the wallet uid after the response, checks for an empty
response, and either recurses accumulating or returns the batch. -/
def fetchAddressesLoop (env : Env) : Nat → Nat → List String → KState →
    Res (List String)
  | 0, _, recursed, s => ⟨Except.ok recursed, s, []⟩
  | Nat.succ m, i, recursed, s =>
    let shouldRecurse := hdPathHasInternalVarIdx s.hdPath
    match getHDPathIndices s.hdPath i with
    | Except.error e => ⟨Except.error e, s, []⟩
    | Except.ok _startPath =>
      let reqN := if shouldRecurse then 1 else Nat.succ m
      match env.getAddresses reqN i with
      | Except.error e => ⟨Except.error e, s, [Req.getAddressesReq reqN i]⟩
      | Except.ok addrs =>
        let r := syncCurrentWalletUID s env
        if !(strOptTruthy r.1) then
          ⟨Except.error noActiveWalletMsg, r.2, [Req.getAddressesReq reqN i]⟩
        else if addrs.length < 1 then
          ⟨Except.error noAddrsMsg, r.2, [Req.getAddressesReq reqN i]⟩
        else if shouldRecurse then
          let rr := fetchAddressesLoop env m (i + 1) (recursed ++ addrs) r.2
          ⟨rr.out, rr.st, Req.getAddressesReq reqN i :: rr.reqs⟩
        else ⟨Except.ok addrs, r.2, [Req.getAddressesReq reqN i]⟩

/-- Embedding of _fetchAddresses: requires an unlocked state, then runs
the fetch loop. -/
def fetchAddresses (env : Env) (n i : Nat) (s : KState) : Res (List String) :=
  if !(isUnlocked s) then ⟨Except.error noConnMsg, s, []⟩
  else fetchAddressesLoop env n i [] s

/-- Guard of the addAccounts append loop: true when some cached record
already carries the same address, wallet identity and path template. -/
def alreadySaved (accounts : List String) (opts : List AccountOpts)
    (addr : String) (uid : Option String) (hdPath : String) : Bool :=
  (List.range accounts.length).any fun j =>
    decide (accounts[j]? = some addr ∧
      (opts[j]?).map AccountOpts.walletUID = some uid ∧
      (opts[j]?).map AccountOpts.hdPath = some hdPath)

/-- Append loop of addAccounts: for each fetched address, push the
address, its derivation index and its metadata unless an identical record
exists.  The guard is re-evaluated against the grown arrays, as the
source re-reads this.accounts each iteration. -/
def appendLoop (uid : Option String) (hdPath : String) (unlockedAccount : Nat) :
    List String → Nat → KState → KState
  | [], _, s => s
  | addr :: rest, i, s =>
    let s1 :=
      if alreadySaved s.accounts s.accountOpts addr uid hdPath then s
      else
        { s with
          accounts := s.accounts ++ [addr]
          accountIndices := s.accountIndices ++ [unlockedAccount + i]
          accountOpts := s.accountOpts ++ [⟨uid, hdPath⟩] }
    appendLoop uid hdPath unlockedAccount rest (i + 1) s1

/-- Rejection message of addAccounts for non-positive counts. -/
def positiveMsg : String := "Number of accounts to add must be a positive number."

/-- Embedding of addAccounts: the CLOSE_CODE overload forgets the device
and resolves with an empty list; other non-positive counts reject;
otherwise unlock, fetch and append. -/
def addAccounts (env : Env) (n : Int) (s : KState) : Res (List String) :=
  if n = CLOSE_CODE then ⟨Except.ok [], forgetDevice s, []⟩
  else if n ≤ 0 then ⟨Except.error positiveMsg, s, []⟩
  else
    let r1 := unlock s env
    match r1.out with
    | Except.error e => ⟨Except.error e, r1.st, r1.reqs⟩
    | Except.ok _ =>
      let r2 := fetchAddresses env n.toNat r1.st.unlockedAccount r1.st
      match r2.out with
      | Except.error e => ⟨Except.error e, r2.st, r1.reqs ++ r2.reqs⟩
      | Except.ok addrs =>
        let uid := getCurrentWalletUID r2.st
        let s3 := appendLoop uid r2.st.hdPath r2.st.unlockedAccount addrs 0 r2.st
        ⟨Except.ok s3.accounts, s3, r1.reqs ++ r2.reqs⟩

/-- Loop of removeAccount: JS forEach over the shrinking accounts array
with an in-place splice of all three parallel arrays at each matching
index.  fuel is the length captured when the loop starts; an index beyond
the current length is absent and the callback is skipped. -/
def removeLoop (address : String) : Nat → Nat → KState → KState
  | 0, _, s => s
  | Nat.succ fuel, k, s =>
    if k < s.accounts.length then
      if jsToLower (s.accounts.getD k "") == jsToLower address then
        removeLoop address fuel (k + 1)
          { s with
            accounts := s.accounts.eraseIdx k
            accountIndices := s.accountIndices.eraseIdx k
            accountOpts := s.accountOpts.eraseIdx k }
      else removeLoop address fuel (k + 1) s
    else s

/-- Embedding of removeAccount (case-insensitive address match, removing
the record and its index and path metadata). -/
def removeAccount (address : String) (s : KState) : KState :=
  removeLoop address s.accounts.length 0 s

/-- Last index whose cached address matches case-insensitively; the
source forEach overwrites the found index on every match, so the last
match wins. -/
def lastMatchIdx (address : String) (addrs : List String) : Option Nat :=
  (List.range addrs.length).foldl
    (fun acc i =>
      if jsToLower (addrs.getD i "") == jsToLower address then some i else acc)
    none

/-- Rejection message of _ensureCurrentWalletUID after a failed re-unlock. -/
def ensureFailMsg : String := "Could not access Lattice wallet. Please re-connect."

/-- Embedding of _ensureCurrentWalletUID: resolve on a truthy stored uid,
otherwise force an unlock and re-check. -/
def ensureCurrentWalletUID (env : Env) (s : KState) : Res Unit :=
  if strOptTruthy (getCurrentWalletUID s) then ⟨Except.ok (), s, []⟩
  else
    let r := unlock s env
    match r.out with
    | Except.error e => ⟨Except.error e, r.st, r.reqs⟩
    | Except.ok _ =>
      if strOptTruthy (getCurrentWalletUID r.st) then ⟨Except.ok (), r.st, r.reqs⟩
      else ⟨Except.error ensureFailMsg, r.st, r.reqs⟩

/-- Rejection message when the requested signer is not cached. -/
def signerNotPresentMsg : String := "Signer not present"

/-- Embedding of _findSignerIdx: unlock, ensure a wallet uid, then look
the address up in the cached accounts. -/
def findSignerIdx (env : Env) (address : String) (s : KState) : Res Nat :=
  let r1 := unlock s env
  match r1.out with
  | Except.error e => ⟨Except.error e, r1.st, r1.reqs⟩
  | Except.ok _ =>
    let r2 := ensureCurrentWalletUID env r1.st
    match r2.out with
    | Except.error e => ⟨Except.error e, r2.st, r1.reqs ++ r2.reqs⟩
    | Except.ok _ =>
      match lastMatchIdx address r2.st.accounts with
      | none => ⟨Except.error signerNotPresentMsg, r2.st, r1.reqs ++ r2.reqs⟩
      | some idx => ⟨Except.ok idx, r2.st, r1.reqs ++ r2.reqs⟩

/-- Transaction input to signTransaction.  Buffer-valued fields that the
builder converts with toString are plain strings; fields the source reads
only behind presence checks or that may be absent are options.  txType is
tx underscore type with 0 standing for a legacy (untyped) transaction. -/
structure Tx where
  txType : Nat
  chainId : String
  nonce : String
  gasLimit : String
  toAddr : Option String
  value : String
  data : String
  gasPrice : Option String
  maxFeePerGas : Option String
  maxPriorityFeePerGas : Option String
deriving DecidableEq, Repr

/-- Device request payload assembled by signTransaction, restricted to
the fields later logic reads. -/
structure TxData where
  txType : Option Nat
  gasPrice : Option String
  maxFeePerGas : Option String
  maxPriorityFeePerGas : Option String
  revertToLegacy : Bool
  signerPath : List (Option Nat)
deriving DecidableEq, Repr

/-- Missing-fee message of the EIP1559 branch (the source wraps the two
field names in backticks, elided here). -/
def feeFieldsMsg : String :=
  "maxPriorityFeePerGas and maxFeePerGas must be included for EIP1559 transactions."

/-- Wrapper message of the catch block around the request builder. -/
def buildFailMsg : String := "Failed to build transaction."

/-- Marker for a JS TypeError raised by reading toString of an undefined
field inside the builder. -/
def jsTypeErr : String := "TypeError"

/-- Embedding of the request-shape switch and firmware downgrade of
signTransaction: the EIP1559 branch requires both fee fields, the EIP2930
and legacy branches read gasPrice (a TypeError when absent), and firmware
below 0.11 rewrites typed requests to legacy shape. -/
def buildTxData (tx : Tx) (signerPath : List (Option Nat)) (env : Env) :
    Except String TxData :=
  let base : TxData :=
    ⟨none, none, none, none, false, signerPath⟩
  let shaped : Except String TxData :=
    if tx.txType = 2 then
      if tx.maxPriorityFeePerGas.isNone || tx.maxFeePerGas.isNone then
        Except.error feeFieldsMsg
      else
        Except.ok
          { base with
            maxPriorityFeePerGas := tx.maxPriorityFeePerGas
            maxFeePerGas := tx.maxFeePerGas
            txType := some 2 }
    else if tx.txType = 1 then
      match tx.gasPrice with
      | none => Except.error jsTypeErr
      | some gp => Except.ok { base with gasPrice := some gp, txType := some 1 }
    else
      match tx.gasPrice with
      | none => Except.error jsTypeErr
      | some gp => Except.ok { base with gasPrice := some gp, txType := none }
  match shaped with
  | Except.error e => Except.error e
  | Except.ok td =>
    let forceLegacyTx := env.fwMajor < 1 && env.fwMinor < 11
    if forceLegacyTx && td.txType == some 2 then
      Except.ok
        { td with
          gasPrice := td.maxFeePerGas
          revertToLegacy := true
          txType := none
          maxFeePerGas := none
          maxPriorityFeePerGas := none }
    else if forceLegacyTx && td.txType == some 1 then
      Except.ok { td with revertToLegacy := true, txType := none }
    else Except.ok td

/-- Device sign response augmented by _signTxData with the request type
and downgrade markers. -/
structure SignedResult where
  sig : Option SigData
  tx : Bool
  txType : Option Nat
  revertToLegacy : Bool
  gasPrice : Option String
deriving DecidableEq, Repr

/-- Rejection message when the sign response lacks a tx payload. -/
def noTxPayloadMsg : String := "No transaction payload returned."

/-- Embedding of the modern _signTxData: device sign, wallet-uid sync,
payload check, then augmentation with type and downgrade fields. -/
def signTxData (env : Env) (td : TxData) (s : KState) : Res SignedResult :=
  match env.signResult with
  | Except.error e => ⟨Except.error e, s, [Req.signReq]⟩
  | Except.ok res =>
    let r := syncCurrentWalletUID s env
    if !(strOptTruthy r.1) then
      ⟨Except.error noActiveWalletMsg, r.2, [Req.signReq]⟩
    else if !res.tx then ⟨Except.error noTxPayloadMsg, r.2, [Req.signReq]⟩
    else
      ⟨Except.ok
        ⟨res.sig, res.tx, td.txType, td.revertToLegacy,
          if td.revertToLegacy then td.gasPrice else none⟩,
        r.2, [Req.signReq]⟩

/-- Rejection message of signTransaction for a missing signature. -/
def noSigDotMsg : String := "No signature returned."

/-- Rejection message of signMessage for a missing signature. -/
def noSigMsg : String := "No signature returned"

/-- Rejection message of signMessage for an unusable v component. -/
def invalidSigFormatMsg : String := "Invalid signature format returned."

/-- Embedding of signTransaction: signer resolution, the builder try
block (any synchronous build error is replaced by the generic failure
message), the device sign, and the signature presence check.  The final
re-assembly through the external transaction library is out of scope; the
augmented sign result is returned. -/
def signTransaction (env : Env) (address : String) (tx : Tx) (s : KState) :
    Res SignedResult :=
  let r1 := findSignerIdx env address s
  match r1.out with
  | Except.error e => ⟨Except.error e, r1.st, r1.reqs⟩
  | Except.ok accountIdx =>
    let addressIdx := r1.st.accountIndices.getD accountIdx 0
    let parentPath := (r1.st.accountOpts.getD accountIdx ⟨none, ""⟩).hdPath
    let build : Except String TxData :=
      match getHDPathIndices parentPath addressIdx with
      | Except.error e => Except.error e
      | Except.ok sp => buildTxData tx sp env
    match build with
    | Except.error _ => ⟨Except.error buildFailMsg, r1.st, r1.reqs⟩
    | Except.ok td =>
      let r2 := signTxData env td r1.st
      match r2.out with
      | Except.error e => ⟨Except.error e, r2.st, r1.reqs ++ r2.reqs⟩
      | Except.ok sr =>
        match sr.sig with
        | none => ⟨Except.error noSigDotMsg, r2.st, r1.reqs ++ r2.reqs⟩
        | some sg =>
          if sg.v.isNone || sg.r.isNone || sg.s.isNone then
            ⟨Except.error noSigDotMsg, r2.st, r1.reqs ++ r2.reqs⟩
          else ⟨Except.ok sr, r2.st, r1.reqs ++ r2.reqs⟩

/-- Embedding of signMessage: signer resolution, path resolution (a
synchronous throw rejects), device sign, wallet-uid sync, signature and
v-format checks, and the concatenated hex result with the recovery byte
left-padded to two characters. -/
def signMessage (env : Env) (address : String) (s : KState) : Res String :=
  let r1 := findSignerIdx env address s
  match r1.out with
  | Except.error e => ⟨Except.error e, r1.st, r1.reqs⟩
  | Except.ok accountIdx =>
    let addressIdx := r1.st.accountIndices.getD accountIdx 0
    let parentPath := (r1.st.accountOpts.getD accountIdx ⟨none, ""⟩).hdPath
    match getHDPathIndices parentPath addressIdx with
    | Except.error e => ⟨Except.error e, r1.st, r1.reqs⟩
    | Except.ok _sp =>
      match env.signResult with
      | Except.error e => ⟨Except.error e, r1.st, r1.reqs ++ [Req.signReq]⟩
      | Except.ok res =>
        let r2 := syncCurrentWalletUID r1.st env
        if !(strOptTruthy r2.1) then
          ⟨Except.error noActiveWalletMsg, r2.2, r1.reqs ++ [Req.signReq]⟩
        else
          match res.sig with
          | none => ⟨Except.error noSigMsg, r2.2, r1.reqs ++ [Req.signReq]⟩
          | some sg =>
            match sg.v with
            | none =>
              ⟨Except.error invalidSigFormatMsg, r2.2, r1.reqs ++ [Req.signReq]⟩
            | some v0 =>
              let v := if v0.length < 2 then "0" ++ v0 else v0
              ⟨Except.ok ("0x" ++ sg.r.getD "" ++ sg.s.getD "" ++ v), r2.2,
                r1.reqs ++ [Req.signReq]⟩

/-- Embedding of exportAccount: always rejects, never touches state. -/
def exportAccount (s : KState) : Res Unit :=
  ⟨Except.error "exportAccount not supported by this device", s, []⟩

/-- One page entry returned by _getPage. -/
structure PageEntry where
  address : String
  index : Int
deriving DecidableEq, Repr

/-- Embedding of _getPage: adjust and clamp the cursor, unlock, fetch a
page of addresses, and wrap them with absolute indices. -/
def getPage (env : Env) (increment : Int) (s : KState) : Res (List PageEntry) :=
  let page1 := s.page + increment
  let page2 := if page1 < 0 then 0 else page1
  let s0 := { s with page := page2 }
  let start : Int := (PER_PAGE : Int) * page2
  let r1 := unlock s0 env
  match r1.out with
  | Except.error e => ⟨Except.error e, r1.st, r1.reqs⟩
  | Except.ok _ =>
    let r2 := fetchAddresses env PER_PAGE start.toNat r1.st
    match r2.out with
    | Except.error e => ⟨Except.error e, r2.st, r1.reqs ++ r2.reqs⟩
    | Except.ok addrs =>
      ⟨Except.ok (addrs.enum.map fun p => ⟨p.2, start + (p.1 : Int)⟩),
        r2.st, r1.reqs ++ r2.reqs⟩

/-- Embedding of getFirstPage: set the force-reconnect flag, reset the
cursor, and fetch page zero. -/
def getFirstPage (env : Env) (s : KState) : Res (List PageEntry) :=
  getPage env 0 { s with forceReconnect := true, page := 0 }

/-- Embedding of getNextPage. -/
def getNextPage (env : Env) (s : KState) : Res (List PageEntry) :=
  getPage env 1 s

/-- Embedding of getPreviousPage. -/
def getPreviousPage (env : Env) (s : KState) : Res (List PageEntry) :=
  getPage env (-1) s

/-- State of the earlier adapter variant, restricted to what its _connect
touches. -/
structure V0State where
  accounts : List String
  walletUID : Option String
deriving DecidableEq, Repr

/-- Wallet-drift rejection message of the earlier _connect. -/
def walletChangedMsg : String := "Wallet has changed! Please reconnect."

/-- No-active-wallet rejection of the earlier _connect (no period in that
variant). -/
def noActiveWalletMsgV0 : String := "No active wallet"

/-- Embedding of the earlier variant of _connect(updateData): connect the
device, read the active wallet, and on a differing uid either reject
(updateData false) without touching state, or clear the accounts and
adopt the new uid. -/
def connectV0 (updateData : Bool) (s : V0State) (env : Env) :
    Except String Unit × V0State :=
  match env.connectErr with
  | some e => (Except.error e, s)
  | none =>
    match env.activeWallet with
    | none => (Except.error noActiveWalletMsgV0, s)
    | some uid =>
      if some uid ≠ s.walletUID then
        if updateData = false then (Except.error walletChangedMsg, s)
        else (Except.ok (), { s with accounts := [], walletUID := some uid })
      else (Except.ok (), s)

/-- Public keyring operations of the modern variant. -/
inductive Op where
  | unlockOp : Op
  | addAccountsOp (n : Int) : Op
  | removeAccountOp (address : String) : Op
  | forgetDeviceOp : Op
  | getAccountsOp : Op
  | setAccountToUnlockOp (index : Nat) : Op
  | getFirstPageOp : Op
  | getNextPageOp : Op
  | getPreviousPageOp : Op
  | signTransactionOp (address : String) (tx : Tx) : Op
  | signMessageOp (address : String) : Op
  | exportAccountOp : Op

/-- Forget the value carried by a result, keeping outcome kind, state and
requests. -/
def Res.unit (r : Res α) : Res Unit :=
  ⟨r.out.map fun _ => (), r.st, r.reqs⟩

/-- Dispatcher over the public keyring surface; removeAccount,
forgetDevice, getAccounts and setAccountToUnlock are synchronous and
never reject. -/
def runOp (op : Op) (s : KState) (env : Env) : Res Unit :=
  match op with
  | Op.unlockOp => (unlock s env).unit
  | Op.addAccountsOp n => (addAccounts env n s).unit
  | Op.removeAccountOp a => ⟨Except.ok (), removeAccount a s, []⟩
  | Op.forgetDeviceOp => ⟨Except.ok (), forgetDevice s, []⟩
  | Op.getAccountsOp => ⟨Except.ok (), s, []⟩
  | Op.setAccountToUnlockOp i => ⟨Except.ok (), { s with unlockedAccount := i }, []⟩
  | Op.getFirstPageOp => (getFirstPage env s).unit
  | Op.getNextPageOp => (getNextPage env s).unit
  | Op.getPreviousPageOp => (getPreviousPage env s).unit
  | Op.signTransactionOp a tx => (signTransaction env a tx s).unit
  | Op.signMessageOp a => (signMessage env a s).unit
  | Op.exportAccountOp => exportAccount s

/-- Ledger-style template m/44h/60h/xh/0/0 with the placeholder in an
internal segment (h is the apostrophe hardened marker). -/
def ledgerLikePath : String :=
  "m/44" ++ hardStr ++ "/60" ++ hardStr ++ "/x" ++ hardStr ++ "/0/0"

/-- State of a keyring right after construction: what _resetDefaults
produces on a fresh object. -/
def initialState : KState :=
  ⟨[], [], [], emptyCreds, none, false, 0, 0, none, none, none,
    STANDARD_HD_PATH, false⟩

/-- Benign environment used by concrete witnesses: identity digest, a
valid connector payload, no connect error, a fixed reported wallet w1,
three fixed addresses for any request, and a complete sign response. -/
def env0 : Env :=
  ⟨id, Except.ok ⟨"dev1", "pw1", none⟩, none, some "w1",
    fun _ _ => Except.ok ["0xa1", "0xa2", "0xa3"],
    Except.ok ⟨some ⟨some "1b", some "ff", some "ee"⟩, true⟩, 12, 1⟩

/-- State with credentials and a legacy name but no appName: hasCreds is
false, yet genSessionKey succeeds after the legacy migration. -/
def c5state : KState :=
  { initialState with creds := ⟨some "dev", some "pw", none⟩, name := some "MetaMask" }

/-- State with credentials and an appName, cursor variant A. -/
def c5stateA : KState :=
  { initialState with
    creds := ⟨some "dev", some "pw", none⟩
    appName := some "App"
    page := 3 }

/-- State with the same credentials and appName as variant A but a
different cache. -/
def c5stateB : KState :=
  { initialState with
    creds := ⟨some "dev", some "pw", none⟩
    appName := some "App"
    accounts := ["0xzz"]
    accountIndices := [4]
    accountOpts := [⟨some "w9", STANDARD_HD_PATH⟩] }

/-- State holding one cached account under stored wallet identity aa,
with credentials present but no live session, so that unlock reconnects. -/
def c1state : KState :=
  { initialState with
    accounts := ["0xab"], accountIndices := [0],
    accountOpts := [⟨some "aa", STANDARD_HD_PATH⟩],
    creds := ⟨some "dev", some "pw", none⟩,
    appName := some "App",
    walletUID := some "aa" }

/-- Environment whose device reports wallet identity bb. -/
def c1env : Env := { env0 with activeWallet := some "bb" }

/-- Old-variant state with stored identity aa and one cached account. -/
def v0state : V0State := ⟨["0xab"], some "aa"⟩

/-- Unlocked state with one cached account under wallet w1, matching
env0. -/
def c4state : KState :=
  { initialState with
    accounts := ["0xaa"], accountIndices := [0],
    accountOpts := [⟨some "w1", STANDARD_HD_PATH⟩],
    walletUID := some "w1", sdkSession := true }

/-- EIP1559 transaction input missing maxFeePerGas. -/
def c4tx : Tx :=
  ⟨2, "1", "0", "5208", some "dead", "0", "", some "5", none, some "1"⟩

/-- Legacy transaction input missing gasPrice entirely. -/
def c4txLegacy : Tx :=
  ⟨0, "1", "0", "5208", some "dead", "0", "", none, none, none⟩

/-- Cache holding the same address under two wallet identities (the
dedupe guard only blocks identical triples, so this state is reachable),
with a different record in between. -/
def c8state : KState :=
  { initialState with
    accounts := ["0xaa", "0xbb", "0xaa"]
    accountIndices := [0, 1, 2]
    accountOpts :=
      [⟨some "w1", STANDARD_HD_PATH⟩, ⟨some "w1", STANDARD_HD_PATH⟩,
        ⟨some "w2", STANDARD_HD_PATH⟩] }

/-- Cache with two distinct addresses. -/
def c8stateU : KState :=
  { initialState with
    accounts := ["0xaa", "0xbb"]
    accountIndices := [0, 1]
    accountOpts := [⟨some "w1", STANDARD_HD_PATH⟩, ⟨some "w1", STANDARD_HD_PATH⟩] }

/-- The account cache of the second state equals that of the first. -/
def cacheSame (s t : KState) : Prop :=
  t.accounts = s.accounts ∧ t.accountIndices = s.accountIndices ∧
    t.accountOpts = s.accountOpts

/-- The account cache of the state is empty, as after a device forget. -/
def cacheCleared (t : KState) : Prop :=
  t.accounts = [] ∧ t.accountIndices = [] ∧ t.accountOpts = []

/-- On a failing operation the cache is either untouched or reset by the
documented forget-device path. -/
def cacheFrame (s t : KState) : Prop := cacheSame s t ∨ cacheCleared t

/-- On a failing operation the credentials are untouched, or hold the
payload persisted by the credential acquisition step, or are cleared by a
forget-device reset. -/
def credsFrame (env : Env) (s t : KState) : Prop :=
  t.creds = s.creds
  ∨ (∃ p, env.connectorCreds = Except.ok p ∧ t.creds = credsOfPayload p)
  ∨ t.creds = emptyCreds

/-- On a failing operation the stored wallet identity is untouched, or
was adopted from the device-reported identity, or was cleared by a
forget-device reset. -/
def uidFrame (env : Env) (s t : KState) : Prop :=
  t.walletUID = s.walletUID
  ∨ (∃ u, env.activeWallet = some u ∧ t.walletUID = some u)
  ∨ t.walletUID = none

/-- Conjunction of the three failure-frame components. -/
def stateFrame (env : Env) (s t : KState) : Prop :=
  cacheFrame s t ∧ credsFrame env s t ∧ uidFrame env s t

/-- The three parallel cache arrays have equal lengths. -/
def eqLen (s : KState) : Prop :=
  s.accounts.length = s.accountIndices.length ∧
    s.accountIndices.length = s.accountOpts.length

/-- Derivation indices pushed by the append loop of addAccounts: position
j of the fetched list receives unlockedAccount + (i + j). -/
def idxList (u : Nat) : Nat → List String → List Nat
  | _, [] => []
  | i, _ :: rest => (u + i) :: idxList u (i + 1) rest

/-- Fresh state that knows an application name, so that unlock reaches
the device connect after acquiring credentials. -/
def c2state : KState := { initialState with appName := some "App" }

/-- Environment where the connector returns valid credentials but the
device connect then fails. -/
def c2env : Env := { env0 with connectErr := some "connect timeout" }

/-- Unlocked fresh-cache state bound to wallet w1, matching env0. -/
def c3state : KState :=
  { initialState with walletUID := some "w1", sdkSession := true }

/-- The loop of hdPathHasInternalVarIdx scans exactly the non-final
segments. -/
theorem hasXInternal_eq (segs : List String) :
    hasXInternal segs = segs.dropLast.any (fun seg => strContains seg xChar) := by
  induction segs with
  | nil => rfl
  | cons a t ih =>
    cases t with
    | nil => rfl
    | cons b t2 =>
      show (strContains a xChar || hasXInternal (b :: t2)) = _
      rw [ih]
      rfl

/-- C6: hdPathHasInternalVarIdx returns true iff a segment other than the
last contains the placeholder x; in particular the Ledger-style template
with an internal placeholder yields true and the standard template with
the placeholder in the final segment yields false. -/
theorem claimC6 :
    (∀ p, hdPathHasInternalVarIdx p = true ↔
        ∃ seg ∈ (pathSegments p).dropLast, strContains seg xChar = true)
    ∧ hdPathHasInternalVarIdx ledgerLikePath = true
    ∧ hdPathHasInternalVarIdx STANDARD_HD_PATH = false := by
  refine ⟨fun p => ?_, by decide, by decide⟩
  rw [hdPathHasInternalVarIdx, hasXInternal_eq]
  exact List.any_eq_true

/-- C7: getHDPathIndices never returns more than 5 entries, its only
failure is the path-length error, and when no segment contains the
placeholder the insertion index is appended as the final entry before the
length check. -/
theorem claimC7 (p : String) (i : Nat) :
    (∀ l, getHDPathIndices p i = Except.ok l → l.length ≤ 5)
    ∧ (∀ e, getHDPathIndices p i = Except.error e → e = pathLenErr)
    ∧ ((pathSegments p).any (fun seg => strContains seg xChar) = false →
        ∀ l, getHDPathIndices p i = Except.ok l →
          l = (pathSegments p).map (parseSegIdx i) ++ [some i]) := by
  refine ⟨fun l h => ?_, fun e h => ?_, fun hxf l h => ?_⟩
  · simp only [getHDPathIndices] at h
    split at h <;> (try split at h) <;> cases h <;> omega
  · simp only [getHDPathIndices] at h
    split at h <;> (try split at h) <;> cases h <;> rfl
  · simp only [getHDPathIndices, hxf, Bool.false_eq_true, if_false] at h
    split at h <;> cases h <;> rfl

/-- Witness for C7 at the placeholder-free template m/44/60 and insertion
index 7. -/
theorem claimC7_witness :
    getHDPathIndices "m/44/60" 7 = Except.ok [some 44, some 60, some 7]
    ∧ ([some 44, some 60, some 7] : List (Option Nat)).length ≤ 5
    ∧ ([some 44, some 60, some 7] : List (Option Nat)) =
        (pathSegments "m/44/60").map (parseSegIdx 7) ++ [some 7] := by
  have h : getHDPathIndices "m/44/60" 7 = Except.ok [some 44, some 60, some 7] := by
    rfl
  exact ⟨h, (claimC7 "m/44/60" 7).1 _ h, (claimC7 "m/44/60" 7).2.2 (by decide) _ h⟩

/-- C9: addAccounts with the CLOSE_CODE sentinel forgets the device
(resetting credentials, session, wallet uid, cache and cursor) and
resolves with an empty list and no device traffic; any other non-positive
count rejects without fetching or changing state. -/
theorem claimC9 (s : KState) (env : Env) (n : Int) :
    addAccounts env CLOSE_CODE s = ⟨Except.ok [], resetDefaults s, []⟩
    ∧ (n ≤ 0 → n ≠ CLOSE_CODE →
        addAccounts env n s = ⟨Except.error positiveMsg, s, []⟩) := by
  constructor
  · rfl
  · intro hle hne
    simp only [addAccounts, if_neg hne, if_pos hle]

/-- Witness for C9 at the fresh state, the benign environment and the
non-positive count -2. -/
theorem claimC9_witness :
    addAccounts env0 CLOSE_CODE initialState =
        ⟨Except.ok [], resetDefaults initialState, []⟩
    ∧ addAccounts env0 (-2) initialState =
        ⟨Except.error positiveMsg, initialState, []⟩ :=
  ⟨(claimC9 initialState env0 (-2)).1,
    (claimC9 initialState env0 (-2)).2 (by decide) (by decide)⟩

/-- The legacy migration changes only appName. -/
theorem migrateName_creds (s : KState) : (migrateName s).creds = s.creds := by
  unfold migrateName
  split <;> rfl

/-- C5, amended by the legacy name migration: genSessionKey fails with
the missing-credentials error exactly when the migrated state lacks
credentials; otherwise it returns the digest of password, deviceID and
appName concatenated in that order; and two states with equal credentials
and equal migrated appName produce equal outputs. -/
theorem claimC5 (env : Env) (s t : KState) :
    (hasCreds (migrateName s) = false →
      genSessionKey env s = (Except.error noCredsMsg, migrateName s))
    ∧ (hasCreds (migrateName s) = true →
        genSessionKey env s =
          (Except.ok (env.hash
            (((migrateName s).creds.password.getD "") ++
              ((migrateName s).creds.deviceID.getD "") ++
              ((migrateName s).appName.getD ""))), migrateName s))
    ∧ (s.creds = t.creds → (migrateName s).appName = (migrateName t).appName →
        (genSessionKey env s).1 = (genSessionKey env t).1) := by
  refine ⟨fun h => ?_, fun h => ?_, fun hc ha => ?_⟩
  · simp [genSessionKey, h]
  · simp [genSessionKey, h]
  · have hsc : hasCreds (migrateName s) = hasCreds (migrateName t) := by
      simp [hasCreds, migrateName_creds, hc, ha]
    simp only [genSessionKey]
    have h1 : (migrateName s).creds = t.creds := (migrateName_creds s).trans hc
    have h2 : (migrateName t).creds = t.creds := migrateName_creds t
    rcases Bool.eq_false_or_eq_true (hasCreds (migrateName t)) with hh | hh <;>
      simp [hsc, hh, h1, h2, ha]

/-- Witness for C5: the fresh state has no credentials and fails, and two
states differing only outside credentials and appName give one output. -/
theorem claimC5_witness :
    genSessionKey env0 initialState = (Except.error noCredsMsg, initialState)
    ∧ (genSessionKey env0 c5stateA).1 = (genSessionKey env0 c5stateB).1 :=
  ⟨(claimC5 env0 initialState initialState).1 (by rfl),
    (claimC5 env0 c5stateA c5stateB).2.2 (by rfl) (by rfl)⟩

/-- Counterexample for C5 as frozen: with credentials set, a legacy name
and no appName, hasCredentials is false and yet genSessionKey does not
fail: the migration step promotes the name and the digest is produced. -/
theorem claimC5_counterexample :
    hasCreds c5state = false
    ∧ (genSessionKey env0 c5state).1 = Except.ok "pwdevMetaMask"
    ∧ (genSessionKey env0 c5state).1 ≠ Except.error noCredsMsg := by
  refine ⟨rfl, rfl, fun h => ?_⟩
  exact Except.noConfusion
    ((rfl : (genSessionKey env0 c5state).1 = Except.ok "pwdevMetaMask").symm.trans h)

/-- C1, amended: in the earlier variant, _connect with updateData false
rejects a drifted wallet identity with the wallet-changed message and
leaves the whole state (cache and stored identity) untouched; in the
newest variant the signing path does not disable adoption and
_syncCurrentWalletUID silently adopts the reported identity instead. -/
theorem claimC1 (sV : V0State) (s : KState) (env : Env) (uStored uNew : String)
    (hw : sV.walletUID = some uStored) (hce : env.connectErr = none)
    (haw : env.activeWallet = some uNew) (hne : uNew ≠ uStored) :
    connectV0 false sV env = (Except.error walletChangedMsg, sV)
    ∧ (s.sdkSession = true → s.walletUID ≠ some uNew →
        syncCurrentWalletUID s env =
          (some uNew, { s with walletUID := some uNew })) := by
  constructor
  · simp [connectV0, hce, haw, hw, hne]
  · intro hs hnw
    have hcond : some uNew ≠ s.walletUID := fun h => hnw h.symm
    simp [syncCurrentWalletUID, hs, haw, hcond]

/-- Witness for C1 at concrete states: the old variant rejects the drift
from aa to bb; the new sync adopts bb. -/
theorem claimC1_witness :
    connectV0 false v0state c1env = (Except.error walletChangedMsg, v0state)
    ∧ syncCurrentWalletUID { c1state with sdkSession := true } c1env =
        (some "bb", { c1state with sdkSession := true, walletUID := some "bb" }) := by
  have h := claimC1 v0state { c1state with sdkSession := true } c1env "aa" "bb"
    rfl rfl rfl (by decide)
  exact ⟨h.1, h.2 rfl (by decide)⟩

/-- Counterexample for C1 as frozen: on the newest variant the signing
path (findSignerIdx, which runs unlock and then the wallet sync) meets a
device reporting identity bb while aa is stored, yet it succeeds and
mutates the stored walletUID, with the cached accounts left pointing at
the old wallet. -/
theorem claimC1_counterexample :
    c1state.walletUID = some "aa"
    ∧ c1env.activeWallet = some "bb"
    ∧ (findSignerIdx c1env "0xAB" c1state).out = Except.ok 0
    ∧ (findSignerIdx c1env "0xAB" c1state).st.walletUID = some "bb"
    ∧ (findSignerIdx c1env "0xAB" c1state).st.accounts = c1state.accounts := by
  exact ⟨rfl, rfl, rfl, rfl, rfl⟩

/-- The credential exchange issues no sign request. -/
theorem getCreds_no_signReq (s : KState) (env : Env) :
    Req.signReq ∉ (getCreds s env).reqs := by
  unfold getCreds
  split
  · simp
  · split
    · simp
    · split <;> simp

/-- Session construction issues no device request. -/
theorem initSession_reqs (env : Env) (s : KState) :
    (initSession env s).reqs = [] := by
  unfold initSession
  split
  · rfl
  · split <;> rfl

/-- The modern connect issues exactly the connect request. -/
theorem connect_reqs (s : KState) (env : Env) :
    (connect s env).reqs = [Req.connectReq] := by
  simp only [connect]
  split
  · rfl
  · split <;> rfl

/-- unlock issues no sign request. -/
theorem unlock_no_signReq (s : KState) (env : Env) :
    Req.signReq ∉ (unlock s env).reqs := by
  simp only [unlock]
  split
  · simp
  · split
    · simp
    · split
      · exact getCreds_no_signReq s env
      · split <;> (try split) <;>
          simp [initSession_reqs, connect_reqs, getCreds_no_signReq s env]

/-- ensureCurrentWalletUID issues no sign request. -/
theorem ensure_no_signReq (env : Env) (s : KState) :
    Req.signReq ∉ (ensureCurrentWalletUID env s).reqs := by
  simp only [ensureCurrentWalletUID]
  split
  · simp
  · split <;> (try split) <;> simp [unlock_no_signReq]

/-- findSignerIdx issues no sign request. -/
theorem findSignerIdx_no_signReq (env : Env) (address : String) (s : KState) :
    Req.signReq ∉ (findSignerIdx env address s).reqs := by
  simp only [findSignerIdx]
  split <;> (try split) <;> (try split) <;>
    simp [unlock_no_signReq, ensure_no_signReq]

/-- C4, amended: for a type-2 transaction missing either fee field the
request builder raises the missing-fee error, no device sign request is
ever issued, and when the signer resolves the promise rejects with the
generic build-failure message (the catch block replaces the specific fee
error, so the surfaced failure is the generic one). -/
theorem claimC4 (env : Env) (address : String) (tx : Tx) (s : KState)
    (h2 : tx.txType = 2)
    (hfee : tx.maxFeePerGas = none ∨ tx.maxPriorityFeePerGas = none) :
    (∀ sp, buildTxData tx sp env = Except.error feeFieldsMsg)
    ∧ Req.signReq ∉ (signTransaction env address tx s).reqs
    ∧ (∀ idx, (findSignerIdx env address s).out = Except.ok idx →
        (signTransaction env address tx s).out = Except.error buildFailMsg) := by
  have hbuild : ∀ sp, buildTxData tx sp env = Except.error feeFieldsMsg := by
    intro sp
    rcases hfee with hf | hf <;> simp [buildTxData, h2, hf]
  refine ⟨hbuild, ?_, ?_⟩
  · simp only [signTransaction]
    split
    · exact findSignerIdx_no_signReq env address s
    · split
      · simp [findSignerIdx_no_signReq]
      · next td hok =>
        exfalso
        split at hok
        · cases hok
        · rw [hbuild] at hok
          cases hok
  · intro idx hidx
    simp only [signTransaction]
    split
    · next e heq => rw [hidx] at heq; cases heq
    · next a heq =>
      split
      · rfl
      · next td hok =>
        split at hok
        · cases hok
        · rw [hbuild] at hok
          cases hok

/-- Witness for C4 at the concrete unlocked state, cached signer and a
type-2 transaction with no maxFeePerGas. -/
theorem claimC4_witness :
    buildTxData c4tx [] env0 = Except.error feeFieldsMsg
    ∧ Req.signReq ∉ (signTransaction env0 "0xAA" c4tx c4state).reqs
    ∧ (signTransaction env0 "0xAA" c4tx c4state).out = Except.error buildFailMsg := by
  have h := claimC4 env0 "0xAA" c4tx c4state rfl (Or.inl rfl)
  exact ⟨h.1 [], h.2.1, h.2.2 0 rfl⟩

/-- Counterexample for C4 as frozen: the rejection carries the generic
build-failure message, not the missing-fee message, and is identical to
the rejection for a legacy transaction missing gasPrice, so no
MissingFeeFieldsError is distinguishable at the interface. -/
theorem claimC4_counterexample :
    (signTransaction env0 "0xAA" c4tx c4state).out = Except.error buildFailMsg
    ∧ (signTransaction env0 "0xAA" c4tx c4state).reqs = []
    ∧ (signTransaction env0 "0xAA" c4txLegacy c4state).out = Except.error buildFailMsg
    ∧ buildFailMsg ≠ feeFieldsMsg := by
  exact ⟨rfl, rfl, rfl, by decide⟩

/-- Erasing the element right after a prefix removes exactly that
element. -/
theorem eraseIdx_append_cons {α : Type} (pre : List α) (m : α) (post : List α) :
    (pre ++ m :: post).eraseIdx pre.length = pre ++ post := by
  induction pre with
  | nil => rfl
  | cons a t ih => simpa [List.eraseIdx] using ih

/-- The removeAccount loop leaves the state alone when no element at or
after the cursor matches. -/
theorem removeLoop_noMatch (address : String) :
    ∀ (fuel k : Nat) (s : KState),
      (∀ a ∈ s.accounts.drop k, ¬(jsToLower a = jsToLower address)) →
      removeLoop address fuel k s = s := by
  intro fuel
  induction fuel with
  | zero => intro k s _; rfl
  | succ f ih =>
    intro k s hno
    simp only [removeLoop]
    split
    · next hk =>
      have hget : s.accounts.getD k "" ∈ s.accounts.drop k := by
        rw [List.getD_eq_getElem?_getD, List.getElem?_eq_getElem hk]
        rw [List.drop_eq_getElem_cons hk]
        exact List.mem_cons_self _ _
      rw [if_neg]
      · exact ih (k + 1) s fun a ha =>
          hno a (List.drop_subset_drop_left _ (Nat.le_succ k) ha)
      · simp only [beq_iff_eq]
        exact hno _ hget
    · rfl

/-- The removeAccount loop, run over a visited prefix, a stretch of
non-matching entries, the unique match and a non-matching tail, erases
exactly the matching position from all three parallel arrays. -/
theorem removeLoop_found (address : String) :
    ∀ (pre : List String) (k : Nat) (s : KState) (vis : List String)
      (m : String) (post : List String),
      s.accounts = vis ++ pre ++ m :: post →
      vis.length = k →
      jsToLower m = jsToLower address →
      (∀ a ∈ pre, ¬(jsToLower a = jsToLower address)) →
      (∀ a ∈ post, ¬(jsToLower a = jsToLower address)) →
      removeLoop address (pre.length + 1 + post.length) k s =
        { s with
          accounts := s.accounts.eraseIdx (k + pre.length)
          accountIndices := s.accountIndices.eraseIdx (k + pre.length)
          accountOpts := s.accountOpts.eraseIdx (k + pre.length) } := by
  intro pre
  induction pre with
  | nil =>
    intro k s vis m post hacc hvis hm _ hpost
    rw [List.append_nil] at hacc
    have hvlen : vis.length = k := hvis
    have hlen : k < s.accounts.length := by
      rw [hacc, List.length_append, List.length_cons]
      omega
    have hgetk : s.accounts.getD k "" = m := by
      rw [List.getD_eq_getElem?_getD, hacc,
        List.getElem?_append_right (by omega), hvis]
      simp
    have hacc2 : s.accounts.eraseIdx k = vis ++ post := by
      rw [hacc, ← hvis, eraseIdx_append_cons]
    have hdropsub : ∀ a, a ∈ (s.accounts.eraseIdx k).drop (k + 1) → a ∈ post := by
      intro a ha
      rw [hacc2] at ha
      have h1 : (vis ++ post).drop (k + 1) = post.drop 1 := by
        have h2 : k + 1 = vis.length + 1 := by omega
        rw [h2, List.drop_append]
      rw [h1] at ha
      exact List.drop_subset _ _ ha
    have hnom : ∀ a ∈ (({ s with
        accounts := s.accounts.eraseIdx k
        accountIndices := s.accountIndices.eraseIdx k
        accountOpts := s.accountOpts.eraseIdx k } : KState).accounts.drop (k + 1)),
        ¬(jsToLower a = jsToLower address) :=
      fun a ha => hpost a (hdropsub a ha)
    rw [show ([] : List String).length + 1 + post.length = post.length + 1 by
      simp only [List.length_nil]; omega]
    simp only [removeLoop]
    rw [if_pos hlen, if_pos (by simp only [beq_iff_eq]; rw [hgetk]; exact hm)]
    rw [removeLoop_noMatch address post.length (k + 1) _ hnom]
    simp
  | cons a t ih =>
    intro k s vis m post hacc hvis hm hpre hpost
    have hlen : k < s.accounts.length := by
      rw [hacc]
      simp only [List.length_append, List.length_cons]
      omega
    have hgetk : s.accounts.getD k "" = a := by
      rw [List.getD_eq_getElem?_getD, hacc,
        List.getElem?_append_left (by simp only [List.length_append, List.length_cons]; omega),
        List.getElem?_append_right (by omega), hvis]
      simp
    have hstep : removeLoop address ((a :: t).length + 1 + post.length) k s =
        removeLoop address (t.length + 1 + post.length) (k + 1) s := by
      rw [show (a :: t).length + 1 + post.length =
        (t.length + 1 + post.length) + 1 by simp only [List.length_cons]; omega]
      simp only [removeLoop]
      rw [if_pos hlen, if_neg]
      simp only [beq_iff_eq, hgetk]
      exact hpre a (List.mem_cons_self a t)
    rw [hstep]
    have hrec := ih (k + 1) s (vis ++ [a]) m post
      (by rw [hacc]; simp) (by simp [hvis]) hm
      (fun b hb => hpre b (List.mem_cons_of_mem a hb)) hpost
    rw [hrec]
    have hidx : k + 1 + t.length = k + (a :: t).length := by
      simp only [List.length_cons]
      omega
    rw [hidx]

/-- C8, amended: removeAccount with an address matching no cached account
leaves the state unchanged; when the cache holds exactly one
case-insensitive match (in particular whenever cached addresses are
pairwise case-insensitively distinct), it removes that record and its
index and path metadata, shrinking the cache by exactly one. -/
theorem claimC8 (address : String) (s : KState) :
    ((∀ a ∈ s.accounts, ¬(jsToLower a = jsToLower address)) →
      removeAccount address s = s)
    ∧ (∀ pre m post,
        s.accounts = pre ++ m :: post →
        jsToLower m = jsToLower address →
        (∀ a ∈ pre, ¬(jsToLower a = jsToLower address)) →
        (∀ a ∈ post, ¬(jsToLower a = jsToLower address)) →
        removeAccount address s =
          { s with
            accounts := pre ++ post
            accountIndices := s.accountIndices.eraseIdx pre.length
            accountOpts := s.accountOpts.eraseIdx pre.length }
          ∧ (pre ++ post).length + 1 = s.accounts.length) := by
  constructor
  · intro hno
    exact removeLoop_noMatch address _ 0 s fun a ha => hno a (by simpa using ha)
  · intro pre m post hacc hm hpre hpost
    have hfuel : s.accounts.length = pre.length + 1 + post.length := by
      rw [hacc]; simp; omega
    have h := removeLoop_found address pre 0 s [] m post (by simpa using hacc)
      rfl hm hpre hpost
    constructor
    · rw [removeAccount, hfuel, h]
      simp only [Nat.zero_add]
      rw [hacc, eraseIdx_append_cons]
    · rw [hacc]; simp; omega

/-- Witness for C8: an absent address leaves the three-record cache
unchanged, and removing the unique match 0xBB from a two-record cache
erases exactly that record and its metadata. -/
theorem claimC8_witness :
    removeAccount "0xcc" c8state = c8state
    ∧ removeAccount "0xBB" c8stateU =
        { c8stateU with
          accounts := ["0xaa"]
          accountIndices := [0]
          accountOpts := [⟨some "w1", STANDARD_HD_PATH⟩] } := by
  have h1 := (claimC8 "0xcc" c8state).1 (by decide)
  have h2 := (claimC8 "0xBB" c8stateU).2 ["0xaa"] "0xbb" [] rfl (by decide)
    (by decide) (by decide)
  exact ⟨h1, h2.1⟩

/-- Counterexample for C8 as frozen: with the same address cached under
two wallet identities, removeAccount deletes two records, not one, so
the cache shrinks from 3 to 1. -/
theorem claimC8_counterexample :
    c8state.accounts.length = 3
    ∧ (removeAccount "0xAA" c8state).accounts = ["0xbb"]
    ∧ (removeAccount "0xAA" c8state).accountIndices = [1]
    ∧ (removeAccount "0xAA" c8state).accounts.length = 1 :=
  ⟨rfl, rfl, rfl, rfl⟩

/-- The failure frame is reflexive. -/
theorem stateFrame_refl (env : Env) (s : KState) : stateFrame env s s :=
  ⟨Or.inl ⟨rfl, rfl, rfl⟩, Or.inl rfl, Or.inl rfl⟩

/-- The failure frame composes along a fixed environment. -/
theorem stateFrame_trans (env : Env) {s t u : KState}
    (h1 : stateFrame env s t) (h2 : stateFrame env t u) : stateFrame env s u := by
  obtain ⟨c1, r1, w1⟩ := h1
  obtain ⟨c2, r2, w2⟩ := h2
  refine ⟨?_, ?_, ?_⟩
  · rcases c2 with ⟨a2, b2, d2⟩ | hcl
    · rcases c1 with ⟨a1, b1, d1⟩ | hcl1
      · exact Or.inl ⟨a2.trans a1, b2.trans b1, d2.trans d1⟩
      · exact Or.inr ⟨a2.trans hcl1.1, b2.trans hcl1.2.1, d2.trans hcl1.2.2⟩
    · exact Or.inr hcl
  · rcases r2 with h | ⟨p, hp, hc⟩ | h
    · rcases r1 with h1c | ⟨p, hp, hc⟩ | h1c
      · exact Or.inl (h.trans h1c)
      · exact Or.inr (Or.inl ⟨p, hp, h.trans hc⟩)
      · exact Or.inr (Or.inr (h.trans h1c))
    · exact Or.inr (Or.inl ⟨p, hp, hc⟩)
    · exact Or.inr (Or.inr h)
  · rcases w2 with h | ⟨uu, hu2, hw2⟩ | h
    · rcases w1 with h1c | ⟨uu, hu2, hw2⟩ | h1c
      · exact Or.inl (h.trans h1c)
      · exact Or.inr (Or.inl ⟨uu, hu2, h.trans hw2⟩)
      · exact Or.inr (Or.inr (h.trans h1c))
    · exact Or.inr (Or.inl ⟨uu, hu2, hw2⟩)
    · exact Or.inr (Or.inr h)

/-- The forget-device reset satisfies the failure frame. -/
theorem stateFrame_reset (env : Env) (s : KState) :
    stateFrame env s (resetDefaults s) :=
  ⟨Or.inr ⟨rfl, rfl, rfl⟩, Or.inr (Or.inr rfl), Or.inr (Or.inr rfl)⟩

/-- The wallet-uid sync touches at most the stored identity, and only
adopts the reported one. -/
theorem sync_frame (s : KState) (env : Env) :
    stateFrame env s (syncCurrentWalletUID s env).2 := by
  simp only [syncCurrentWalletUID]
  split
  · exact stateFrame_refl env s
  · split
    · exact stateFrame_refl env s
    · next uid heq =>
      split
      · exact ⟨Or.inl ⟨rfl, rfl, rfl⟩, Or.inl rfl, Or.inr (Or.inl ⟨uid, heq, rfl⟩)⟩
      · exact stateFrame_refl env s

/-- connect satisfies the failure frame on every outcome. -/
theorem connect_frame (s : KState) (env : Env) :
    stateFrame env s (connect s env).st := by
  simp only [connect]
  split
  · exact stateFrame_refl env s
  · split
    · exact sync_frame s env
    · exact sync_frame s env

/-- getCreds satisfies the failure frame on every outcome: it only
clears the force-reconnect flag. -/
theorem getCreds_frame (s : KState) (env : Env) :
    stateFrame env s (getCreds s env).st := by
  simp only [getCreds]
  split
  · exact stateFrame_refl env s
  · split
    · exact ⟨Or.inl ⟨rfl, rfl, rfl⟩, Or.inl rfl, Or.inl rfl⟩
    · split
      · exact ⟨Or.inl ⟨rfl, rfl, rfl⟩, Or.inl rfl, Or.inl rfl⟩
      · exact ⟨Or.inl ⟨rfl, rfl, rfl⟩, Or.inl rfl, Or.inl rfl⟩

/-- A successful payload from getCreds is the connector payload. -/
theorem getCreds_ok_payload (s : KState) (env : Env) (p : CredsPayload)
    (h : (getCreds s env).out = Except.ok (some p)) :
    env.connectorCreds = Except.ok p := by
  simp only [getCreds] at h
  split at h
  · simp at h
  · split at h
    · simp at h
    · split at h
      · simp at h
      · next heq hcond =>
        simp only [Except.ok.injEq, Option.some.injEq] at h
        rw [heq, h]

/-- genSessionKey touches at most appName. -/
theorem genSessionKey_frame (env : Env) (s : KState) :
    stateFrame env s (genSessionKey env s).2 := by
  simp only [genSessionKey, migrateName]
  split <;> split <;> exact ⟨Or.inl ⟨rfl, rfl, rfl⟩, Or.inl rfl, Or.inl rfl⟩

/-- initSession touches at most appName and the session handle. -/
theorem initSession_frame (env : Env) (s : KState) :
    stateFrame env s (initSession env s).st := by
  simp only [initSession]
  split
  · exact stateFrame_refl env s
  · split
    · next heq =>
      have h := genSessionKey_frame env s
      rw [heq] at h
      exact h
    · next heq =>
      have h := genSessionKey_frame env s
      rw [heq] at h
      exact ⟨h.1, h.2.1, h.2.2⟩

/-- unlock satisfies the failure frame on every outcome. -/
theorem unlock_frame (s : KState) (env : Env) :
    stateFrame env s (unlock s env).st := by
  simp only [unlock]
  split
  · exact stateFrame_reset env s
  · split
    · exact stateFrame_refl env s
    · split
      · exact getCreds_frame s env
      · next payload hpay =>
        have hg := getCreds_frame s env
        cases payload with
        | none =>
          have h2 := stateFrame_trans env hg
            (initSession_frame env (getCreds s env).st)
          split
          · exact h2
          · split
            · exact stateFrame_trans env h2 (connect_frame _ env)
            · exact stateFrame_trans env h2 (connect_frame _ env)
        | some p =>
          have hassign : stateFrame env (getCreds s env).st
              { (getCreds s env).st with creds := credsOfPayload p } :=
            ⟨Or.inl ⟨rfl, rfl, rfl⟩,
              Or.inr (Or.inl ⟨p, getCreds_ok_payload s env p hpay, rfl⟩),
              Or.inl rfl⟩
          have h2 := stateFrame_trans env (stateFrame_trans env hg hassign)
            (initSession_frame env { (getCreds s env).st with creds := credsOfPayload p })
          split
          · exact h2
          · split
            · exact stateFrame_trans env h2 (connect_frame _ env)
            · exact stateFrame_trans env h2 (connect_frame _ env)

/-- The fetch loop satisfies the failure frame on every outcome (it can
only adopt the reported wallet identity). -/
theorem fetchLoop_frame (env : Env) :
    ∀ (n i : Nat) (acc : List String) (s : KState),
      stateFrame env s (fetchAddressesLoop env n i acc s).st := by
  intro n
  induction n with
  | zero => intro i acc s; exact stateFrame_refl env s
  | succ m ih =>
    intro i acc s
    simp only [fetchAddressesLoop]
    split
    · exact stateFrame_refl env s
    · split
      · exact stateFrame_refl env s
      · split
        · exact sync_frame s env
        · split
          · exact sync_frame s env
          · split
            · exact stateFrame_trans env (sync_frame s env) (ih _ _ _)
            · exact sync_frame s env

/-- fetchAddresses satisfies the failure frame on every outcome. -/
theorem fetchAddresses_frame (env : Env) (n i : Nat) (s : KState) :
    stateFrame env s (fetchAddresses env n i s).st := by
  simp only [fetchAddresses]
  split
  · exact stateFrame_refl env s
  · exact fetchLoop_frame env n i [] s

/-- ensureCurrentWalletUID satisfies the failure frame on every outcome. -/
theorem ensure_frame (env : Env) (s : KState) :
    stateFrame env s (ensureCurrentWalletUID env s).st := by
  simp only [ensureCurrentWalletUID]
  split
  · exact stateFrame_refl env s
  · split
    · exact unlock_frame s env
    · split
      · exact unlock_frame s env
      · exact unlock_frame s env

/-- findSignerIdx satisfies the failure frame on every outcome. -/
theorem findSignerIdx_frame (env : Env) (address : String) (s : KState) :
    stateFrame env s (findSignerIdx env address s).st := by
  simp only [findSignerIdx]
  split
  · exact unlock_frame s env
  · next heq =>
    have h1 := unlock_frame s env
    have h2 := stateFrame_trans env h1 (ensure_frame env (unlock s env).st)
    split
    · exact h2
    · split
      · exact h2
      · exact h2

/-- signTxData satisfies the failure frame on every outcome. -/
theorem signTxData_frame (env : Env) (td : TxData) (s : KState) :
    stateFrame env s (signTxData env td s).st := by
  simp only [signTxData]
  split
  · exact stateFrame_refl env s
  · split
    · exact sync_frame s env
    · split
      · exact sync_frame s env
      · exact sync_frame s env

/-- signTransaction satisfies the failure frame on every outcome: it
never mutates the cache or credentials, and touches the identity only
through the sync. -/
theorem signTransaction_frame (env : Env) (address : String) (tx : Tx)
    (s : KState) :
    stateFrame env s (signTransaction env address tx s).st := by
  simp only [signTransaction]
  split
  · exact findSignerIdx_frame env address s
  · next heq =>
    have h1 := findSignerIdx_frame env address s
    split
    · exact h1
    · next td hok =>
      have h2 := stateFrame_trans env h1
        (signTxData_frame env td (findSignerIdx env address s).st)
      split
      · exact h2
      · split
        · exact h2
        · split
          · exact h2
          · exact h2

/-- signMessage satisfies the failure frame on every outcome. -/
theorem signMessage_frame (env : Env) (address : String) (s : KState) :
    stateFrame env s (signMessage env address s).st := by
  simp only [signMessage]
  split
  · exact findSignerIdx_frame env address s
  · next heq =>
    have h1 := findSignerIdx_frame env address s
    have h2 := stateFrame_trans env h1 (sync_frame (findSignerIdx env address s).st env)
    split
    · exact h1
    · split
      · exact h1
      · split
        · exact h2
        · split
          · exact h2
          · split
            · exact h2
            · exact h2

/-- getPage satisfies the failure frame on every outcome (it moves only
the pagination cursor besides unlock and fetch effects). -/
theorem getPage_frame (env : Env) (inc : Int) (s : KState) :
    stateFrame env s (getPage env inc s).st := by
  simp only [getPage]
  have hcursor : stateFrame env s
      { s with page := if s.page + inc < 0 then 0 else s.page + inc } :=
    ⟨Or.inl ⟨rfl, rfl, rfl⟩, Or.inl rfl, Or.inl rfl⟩
  have hu := stateFrame_trans env hcursor
    (unlock_frame { s with page := if s.page + inc < 0 then 0 else s.page + inc } env)
  split
  · exact hu
  · have hf := stateFrame_trans env hu (fetchAddresses_frame env PER_PAGE
      ((PER_PAGE : Int) * (if s.page + inc < 0 then 0 else s.page + inc)).toNat
      (unlock { s with page := if s.page + inc < 0 then 0 else s.page + inc } env).st)
    split
    · exact hf
    · exact hf

/-- addAccounts satisfies the failure frame whenever it fails. -/
theorem addAccounts_error_frame (env : Env) (n : Int) (s : KState) (e : String)
    (h : (addAccounts env n s).out = Except.error e) :
    stateFrame env s (addAccounts env n s).st := by
  simp only [addAccounts] at h ⊢
  by_cases h1 : n = CLOSE_CODE
  · rw [if_pos h1] at h
    cases h
  · rw [if_neg h1] at h ⊢
    by_cases h2 : n ≤ 0
    · rw [if_pos h2]
      exact stateFrame_refl env s
    · rw [if_neg h2] at h ⊢
      split at h
      · next e2 heq =>
        try simp only [heq]
        exact unlock_frame s env
      · next a heq =>
        try simp only [heq]
        split at h
        · next e2 heq2 =>
          try simp only [heq2]
          exact stateFrame_trans env (unlock_frame s env)
            (fetchAddresses_frame env n.toNat (unlock s env).st.unlockedAccount
              (unlock s env).st)
        · cases h

/-- C2, amended: whenever a public operation fails, the account cache is
unchanged unless the documented forget-device reset ran; the stored
wallet identity is unchanged unless the documented adoption of the
device-reported identity (or a reset) happened; and the credentials are
unchanged except that unlock persists credentials freshly obtained from
the connector even when a later step fails (or a reset cleared them). -/
theorem claimC2 (op : Op) (s : KState) (env : Env) (e : String)
    (h : (runOp op s env).out = Except.error e) :
    stateFrame env s (runOp op s env).st := by
  cases op with
  | unlockOp => exact unlock_frame s env
  | addAccountsOp n =>
    have hh : (addAccounts env n s).out = Except.error e := by
      simp only [runOp, Res.unit] at h
      cases hout : (addAccounts env n s).out with
      | error e2 =>
        rw [hout] at h
        simp [Except.map] at h
        rw [h]
      | ok a =>
        rw [hout] at h
        simp [Except.map] at h
    exact addAccounts_error_frame env n s e hh
  | removeAccountOp a => simp [runOp] at h
  | forgetDeviceOp => simp [runOp] at h
  | getAccountsOp => simp [runOp] at h
  | setAccountToUnlockOp i => simp [runOp] at h
  | getFirstPageOp =>
    have h1 : stateFrame env s { s with forceReconnect := true, page := 0 } :=
      ⟨Or.inl ⟨rfl, rfl, rfl⟩, Or.inl rfl, Or.inl rfl⟩
    exact stateFrame_trans env h1 (getPage_frame env 0 _)
  | getNextPageOp => exact getPage_frame env 1 s
  | getPreviousPageOp => exact getPage_frame env (-1) s
  | signTransactionOp a tx => exact signTransaction_frame env a tx s
  | signMessageOp a => exact signMessage_frame env a s
  | exportAccountOp => exact stateFrame_refl env s

/-- Witness for C2: the failing unlock against a device that does not
connect observes the frame. -/
theorem claimC2_witness :
    stateFrame c2env c2state (runOp Op.unlockOp c2state c2env).st :=
  claimC2 Op.unlockOp c2state c2env "connect timeout" (by rfl)

/-- Counterexample for C2 as frozen: unlock fails on the device connect,
which is neither a forget-device nor a wallet-adoption path (cache and
identity are untouched), yet the credentials obtained from the connector
were persisted, so the credentials are not left exactly as they were. -/
theorem claimC2_counterexample :
    (unlock c2state c2env).out = Except.error "connect timeout"
    ∧ c2state.creds = emptyCreds
    ∧ (unlock c2state c2env).st.creds = ⟨some "dev1", some "pw1", none⟩
    ∧ (unlock c2state c2env).st.walletUID = c2state.walletUID
    ∧ (unlock c2state c2env).st.accounts = c2state.accounts :=
  ⟨rfl, rfl, rfl, rfl, rfl⟩

/-- A cache that is unchanged or cleared keeps equal-length parallel
arrays. -/
theorem cacheFrame_eqLen {s t : KState} (h : eqLen s) (hf : cacheFrame s t) :
    eqLen t := by
  rcases hf with ⟨h1, h2, h3⟩ | ⟨h1, h2, h3⟩ <;>
    · unfold eqLen at h ⊢
      rw [h1, h2, h3]
      try exact h
      try simp

/-- The removeAccount loop preserves equal lengths of the three arrays:
each splice removes one entry from each. -/
theorem removeLoop_eqLen (address : String) :
    ∀ (fuel k : Nat) (s : KState), eqLen s → eqLen (removeLoop address fuel k s) := by
  intro fuel
  induction fuel with
  | zero => intro k s h; exact h
  | succ f ih =>
    intro k s h
    simp only [removeLoop]
    split
    · next hk =>
      split
      · apply ih
        unfold eqLen at h ⊢
        simp only [List.length_eraseIdx]
        rw [if_pos hk, if_pos (by omega), if_pos (by omega)]
        omega
      · exact ih (k + 1) s h
    · exact h

/-- The append loop preserves equal lengths: each push appends one entry
to each array. -/
theorem appendLoop_eqLen (uid : Option String) (hdPath : String) (u : Nat) :
    ∀ (addrs : List String) (i : Nat) (s : KState),
      eqLen s → eqLen (appendLoop uid hdPath u addrs i s) := by
  intro addrs
  induction addrs with
  | nil => intro i s h; exact h
  | cons a rest ih =>
    intro i s h
    simp only [appendLoop]
    split
    · exact ih (i + 1) s h
    · apply ih
      unfold eqLen at h ⊢
      simp only [List.length_append, List.length_cons, List.length_nil]
      omega

/-- C10: the cache-mutating operations addAccounts (every outcome,
including the sentinel reset and all failure paths), removeAccount and
forgetDevice preserve the invariant that accounts, accountIndices and
accountOpts have equal lengths. -/
theorem claimC10 (s : KState) (env : Env) (n : Int) (address : String)
    (h : eqLen s) :
    eqLen (addAccounts env n s).st
    ∧ eqLen (removeAccount address s)
    ∧ eqLen (forgetDevice s) := by
  refine ⟨?_, removeLoop_eqLen address _ 0 s h, by unfold eqLen; simp [forgetDevice, resetDefaults]⟩
  simp only [addAccounts]
  split
  · unfold eqLen
    simp [forgetDevice, resetDefaults]
  · split
    · exact h
    · have h1 : eqLen (unlock s env).st :=
        cacheFrame_eqLen h (unlock_frame s env).1
      split
      · exact h1
      · have h2 : eqLen (fetchAddresses env n.toNat
            (unlock s env).st.unlockedAccount (unlock s env).st).st :=
          cacheFrame_eqLen h1 (fetchAddresses_frame env _ _ _).1
        split
        · exact h2
        · exact appendLoop_eqLen _ _ _ _ 0 _ h2

/-- Witness for C10 at a concrete two-record cache. -/
theorem claimC10_witness :
    eqLen (addAccounts env0 3 c8stateU).st
    ∧ eqLen (removeAccount "0xaa" c8stateU)
    ∧ eqLen (forgetDevice c8stateU) :=
  claimC10 c8stateU env0 3 "0xaa" ⟨rfl, rfl⟩

/-- The standard template has its placeholder in the final segment
only. -/
theorem std_no_internal : hdPathHasInternalVarIdx STANDARD_HD_PATH = false := by
  decide

/-- Resolution of the standard template at any insertion index. -/
theorem std_path_indices (i : Nat) :
    getHDPathIndices STANDARD_HD_PATH i =
      Except.ok [some (HARDENED_OFFSET + 44), some (HARDENED_OFFSET + 60),
        some (HARDENED_OFFSET + 0), some (0 + 0), some (0 + i)] := rfl

/-- A non-empty string is truthy. -/
theorem strOptTruthy_some {w : String} (hwne : w ≠ "") :
    strOptTruthy (some w) = true := by
  simp [strOptTruthy, hwne]

/-- The wallet sync is a no-op when the device reports the stored
identity. -/
theorem sync_same (s : KState) (env : Env) (w : String)
    (hsess : s.sdkSession = true) (hw : s.walletUID = some w)
    (haw : env.activeWallet = some w) :
    syncCurrentWalletUID s env = (some w, s) := by
  simp [syncCurrentWalletUID, hsess, haw, hw]

/-- unlock short-circuits on an unlocked state with aligned cache arrays
and no forced reconnect. -/
theorem unlock_short (s : KState) (env : Env)
    (hlen : s.accountOpts.length = s.accounts.length)
    (hu : isUnlocked s = true) (hfr : s.forceReconnect = false) :
    unlock s env = ⟨Except.ok "Unlocked", s, []⟩ := by
  simp only [unlock]
  rw [if_neg (by simp [hlen]), if_pos (by simp [hu, hfr])]

/-- A single batched fetch over the standard path against a device that
reports the stored wallet returns the device addresses and leaves the
state unchanged. -/
theorem fetch_batch (env : Env) (s : KState) (m i : Nat) (w : String)
    (addrs : List String)
    (hsess : s.sdkSession = true) (hw : s.walletUID = some w) (hwne : w ≠ "")
    (haw : env.activeWallet = some w) (hpath : s.hdPath = STANDARD_HD_PATH)
    (hga : env.getAddresses (m + 1) i = Except.ok addrs) (hne : addrs ≠ []) :
    fetchAddresses env (m + 1) i s =
      ⟨Except.ok addrs, s, [Req.getAddressesReq (m + 1) i]⟩ := by
  have hu : isUnlocked s = true := by
    simp [isUnlocked, getCurrentWalletUID, hw, hsess, strOptTruthy_some hwne]
  have hlen1 : ¬(addrs.length < 1) := by
    cases addrs with
    | nil => exact absurd rfl hne
    | cons a rest => simp
  simp only [fetchAddresses, hu, Bool.not_true, Bool.false_eq_true, if_false]
  simp only [fetchAddressesLoop, hpath, std_no_internal, std_path_indices,
    Bool.false_eq_true, if_false, hga, sync_same s env w hsess hw haw,
    strOptTruthy_some hwne, Bool.not_true, if_neg hlen1]

/-- A record not yet cached by address is never considered already
saved. -/
theorem alreadySaved_not_mem (accounts : List String) (opts : List AccountOpts)
    (addr : String) (uid : Option String) (path : String)
    (h : addr ∉ accounts) :
    alreadySaved accounts opts addr uid path = false := by
  simp only [alreadySaved, List.any_eq_false]
  intro j _
  simp only [decide_eq_true_eq, not_and]
  intro hcon
  exact absurd (List.getElem?_mem hcon) h

/-- A record cached by address with the same wallet identity and path at
the same position is already saved. -/
theorem alreadySaved_mem (accounts : List String) (opts : List AccountOpts)
    (addr : String) (uid : Option String) (path : String) (j : Nat)
    (h1 : accounts[j]? = some addr)
    (h2 : opts[j]? = some ⟨uid, path⟩) :
    alreadySaved accounts opts addr uid path = true := by
  simp only [alreadySaved, List.any_eq_true]
  refine ⟨j, List.mem_range.mpr (List.getElem?_eq_some_iff.mp h1).1, ?_⟩
  simp [h1, h2]

/-- The append loop is the identity when every fetched address is already
saved with the same identity and path. -/
theorem appendLoop_saved (uid : Option String) (path : String) (u : Nat) :
    ∀ (addrs : List String) (i : Nat) (s : KState),
      (∀ a ∈ addrs, alreadySaved s.accounts s.accountOpts a uid path = true) →
      appendLoop uid path u addrs i s = s := by
  intro addrs
  induction addrs with
  | nil => intro i s _; rfl
  | cons a rest ih =>
    intro i s h
    simp only [appendLoop, h a (List.mem_cons_self a rest), if_true]
    exact ih (i + 1) s fun b hb => h b (List.mem_cons_of_mem a hb)

/-- The append loop over pairwise-distinct fresh addresses appends every
record, with its derivation index and metadata. -/
theorem appendLoop_fresh (uid : Option String) (path : String) (u : Nat) :
    ∀ (addrs : List String) (i : Nat) (s : KState),
      addrs.Nodup → (∀ a ∈ addrs, a ∉ s.accounts) →
      appendLoop uid path u addrs i s =
        { s with
          accounts := s.accounts ++ addrs
          accountIndices := s.accountIndices ++ idxList u i addrs
          accountOpts := s.accountOpts ++ addrs.map (fun _ => ⟨uid, path⟩) } := by
  intro addrs
  induction addrs with
  | nil =>
    intro i s _ _
    simp [appendLoop, idxList]
  | cons a rest ih =>
    intro i s hnd hmem
    have hmem2 : ∀ b ∈ rest, b ∉ s.accounts ++ [a] := by
      intro b hb
      simp only [List.mem_append, List.mem_singleton, not_or]
      exact ⟨hmem b (List.mem_cons_of_mem a hb),
        fun heq => (List.nodup_cons.mp hnd).1 (heq ▸ hb)⟩
    simp only [appendLoop,
      alreadySaved_not_mem s.accounts s.accountOpts a uid path
        (hmem a (List.mem_cons_self a rest)),
      Bool.false_eq_true, if_false]
    rw [ih (i + 1) _ ((List.nodup_cons.mp hnd).2) hmem2]
    simp [idxList, List.append_assoc]

/-- C3: from an empty cache, a batched addAccounts stores exactly the
fetched addresses; repeating the identical call (same start index, same
wallet identity, same path, same device response) appends nothing,
leaving exactly those n distinct records. -/
theorem claimC3 (env : Env) (s : KState) (n : Int) (w : String)
    (addrs : List String)
    (hacc : s.accounts = []) (hidx : s.accountIndices = [])
    (hopts : s.accountOpts = [])
    (hw : s.walletUID = some w) (hwne : w ≠ "") (hsess : s.sdkSession = true)
    (hfr : s.forceReconnect = false) (hpath : s.hdPath = STANDARD_HD_PATH)
    (haw : env.activeWallet = some w)
    (hga : env.getAddresses n.toNat s.unlockedAccount = Except.ok addrs)
    (hn : 0 < n) (hlen : addrs.length = n.toNat) (hnd : addrs.Nodup) :
    (addAccounts env n s).st.accounts = addrs
    ∧ (addAccounts env n (addAccounts env n s).st).st.accounts = addrs
    ∧ (addAccounts env n (addAccounts env n s).st).st.accounts.length = n.toNat
    ∧ (addAccounts env n (addAccounts env n s).st).st.accounts.Nodup := by
  obtain ⟨m, hm⟩ : ∃ m, n.toNat = m + 1 := ⟨n.toNat - 1, by omega⟩
  have hCL : ¬(n = CLOSE_CODE) := by simp only [CLOSE_CODE]; omega
  have hle : ¬(n ≤ 0) := by omega
  have hne : addrs ≠ [] := by
    intro hnil
    rw [hnil] at hlen
    simp at hlen
    omega
  have hu1 := unlock_short s env (by simp [hacc, hopts]) (by
    simp [isUnlocked, getCurrentWalletUID, hw, hsess, strOptTruthy_some hwne]) hfr
  have hfetch1 := fetch_batch env s m s.unlockedAccount w addrs hsess hw hwne haw
    hpath (by rw [← hm]; exact hga) hne
  have hfirst : addAccounts env n s =
      ⟨Except.ok (appendLoop (some w) s.hdPath s.unlockedAccount addrs 0 s).accounts,
        appendLoop (some w) s.hdPath s.unlockedAccount addrs 0 s,
        [Req.getAddressesReq (m + 1) s.unlockedAccount]⟩ := by
    rw [hm] at hga
    simp only [addAccounts, if_neg hCL, if_neg hle, hu1, hm, hfetch1,
      getCurrentWalletUID, hw]
    simp
  have hs1 := appendLoop_fresh (some w) s.hdPath s.unlockedAccount addrs 0 s hnd
    (by simp [hacc])
  rw [hpath] at hs1
  rw [hpath] at hfirst
  have hs1acc : (appendLoop (some w) STANDARD_HD_PATH s.unlockedAccount addrs 0 s).accounts
      = addrs := by
    rw [hs1, hacc]
    try simp
  have hs1opts : (appendLoop (some w) STANDARD_HD_PATH s.unlockedAccount addrs 0 s).accountOpts
      = addrs.map (fun _ => (⟨some w, STANDARD_HD_PATH⟩ : AccountOpts)) := by
    rw [hs1, hopts]
    try simp
  refine ⟨by rw [hfirst, hs1acc], ?_⟩
  have hs1uid : (appendLoop (some w) STANDARD_HD_PATH s.unlockedAccount addrs 0 s).walletUID
      = some w := by rw [hs1]; exact hw
  have hs1sess : (appendLoop (some w) STANDARD_HD_PATH s.unlockedAccount addrs 0 s).sdkSession
      = true := by rw [hs1]; exact hsess
  have hs1fr : (appendLoop (some w) STANDARD_HD_PATH s.unlockedAccount addrs 0 s).forceReconnect
      = false := by rw [hs1]; exact hfr
  have hs1path : (appendLoop (some w) STANDARD_HD_PATH s.unlockedAccount addrs 0 s).hdPath
      = STANDARD_HD_PATH := by rw [hs1]
  have hs1ua : (appendLoop (some w) STANDARD_HD_PATH s.unlockedAccount addrs 0 s).unlockedAccount
      = s.unlockedAccount := by rw [hs1]
  have hu2 := unlock_short (appendLoop (some w) STANDARD_HD_PATH s.unlockedAccount addrs 0 s)
    env (by rw [hs1opts, hs1acc]; simp)
    (by simp [isUnlocked, getCurrentWalletUID, hs1uid, hs1sess, strOptTruthy_some hwne]) hs1fr
  have hfetch2 := fetch_batch env
    (appendLoop (some w) STANDARD_HD_PATH s.unlockedAccount addrs 0 s) m
    s.unlockedAccount w addrs hs1sess hs1uid hwne haw hs1path
    (by rw [← hm]; exact hga) hne
  have hsaved : ∀ a ∈ addrs,
      alreadySaved
        (appendLoop (some w) STANDARD_HD_PATH s.unlockedAccount addrs 0 s).accounts
        (appendLoop (some w) STANDARD_HD_PATH s.unlockedAccount addrs 0 s).accountOpts
        a (some w) STANDARD_HD_PATH = true := by
    intro a ha
    obtain ⟨j, hj⟩ := List.mem_iff_getElem?.mp ha
    refine alreadySaved_mem _ _ a (some w) STANDARD_HD_PATH j ?_ ?_
    · rw [hs1acc]; exact hj
    · rw [hs1opts, List.getElem?_map, hj]
      rfl
  have hsecond : addAccounts env n
      (appendLoop (some w) STANDARD_HD_PATH s.unlockedAccount addrs 0 s) =
      ⟨Except.ok (appendLoop (some w) STANDARD_HD_PATH s.unlockedAccount addrs 0 s).accounts,
        appendLoop (some w) STANDARD_HD_PATH s.unlockedAccount addrs 0 s,
        [Req.getAddressesReq (m + 1) s.unlockedAccount]⟩ := by
    rw [hm] at hga
    simp only [addAccounts, if_neg hCL, if_neg hle, hu2, hm, hs1ua, hfetch2,
      getCurrentWalletUID, hs1uid, hs1path]
    rw [appendLoop_saved (some w) STANDARD_HD_PATH s.unlockedAccount addrs 0 _ hsaved]
    simp
  rw [hfirst]
  refine ⟨?_, ?_, ?_⟩
  · rw [hsecond]
    exact hs1acc
  · rw [hsecond]
    rw [hs1acc, hlen]
  · rw [hsecond]
    rw [hs1acc]
    exact hnd

/-- Witness for C3: a fresh adapter state bound to wallet w1 against the
benign environment stores the three fetched addresses once, and the
repeated call leaves exactly those three. -/
theorem claimC3_witness :
    (addAccounts env0 3 c3state).st.accounts = ["0xa1", "0xa2", "0xa3"]
    ∧ (addAccounts env0 3 (addAccounts env0 3 c3state).st).st.accounts =
        ["0xa1", "0xa2", "0xa3"]
    ∧ (addAccounts env0 3 (addAccounts env0 3 c3state).st).st.accounts.length =
        (3 : Int).toNat := by
  have h := claimC3 env0 c3state 3 "w1" ["0xa1", "0xa2", "0xa3"]
    rfl rfl rfl rfl (by decide) rfl rfl rfl rfl rfl (by decide) (by decide)
    (by decide)
  exact ⟨h.1, h.2.1, h.2.2.1⟩

end Lattice
